/-
Verification of the compiler-handle layer of `foundry-compilers`
(`src/compile/mod.rs`) against its natural-language specification.

The Rust code is shallowly embedded: semantic versions, version
requirements and their matching semantics (the `semver` crate functions the
code calls), command construction (`Solc::configure_cmd`), version
resolution (`Solc::find_matching_installation`, `Solc::ensure_installed`),
checksum verification (`Solc::verify_checksum`), the invocation engine
(`compile_as` / `async_compile_as` / `compile_output` /
`version_from_output`), and the batch scheduler (`Solc::compile_many`).
Machine integers are modelled as `Nat` (no arithmetic in the claims
overflows), byte buffers as `List Nat`, paths as `String`, and process
interaction as explicit `ProcOutput` values.
-/
import Mathlib

namespace FoundryCompilers

/-! ## Orderings on semantic versions

The `semver` crate compares versions lexicographically by
major / minor / patch / pre-release / build metadata.  Pre-release lists
compare with "empty is greatest" (a release outranks its pre-releases);
identifiers are numeric-before-alphanumeric.  Build metadata compares with
"empty is least" and digit-only identifiers compare numerically with
leading zeros as tie-break. -/

def natCmp (a b : Nat) : Ordering :=
  if a < b then .lt else if b < a then .gt else .eq

theorem natCmp_self (a : Nat) : natCmp a a = .eq := by
  simp [natCmp]

def charCmp (a b : Char) : Ordering :=
  natCmp a.toNat b.toNat

theorem charCmp_self (a : Char) : charCmp a a = .eq := by
  simp [charCmp, natCmp_self]

def charListCmp : List Char → List Char → Ordering
  | [], [] => .eq
  | [], _ :: _ => .lt
  | _ :: _, [] => .gt
  | a :: as, b :: bs =>
    match charCmp a b with
    | .eq => charListCmp as bs
    | o => o

theorem charListCmp_self (l : List Char) : charListCmp l l = .eq := by
  induction l with
  | nil => rfl
  | cons a as ih => simp [charListCmp, charCmp_self, ih]

def strCmp (a b : String) : Ordering :=
  charListCmp a.data b.data

theorem strCmp_self (s : String) : strCmp s s = .eq := by
  simp [strCmp, charListCmp_self]

/-- A single dot-separated pre-release identifier, already classified as
numeric (all ASCII digits, no leading zero) or alphanumeric, mirroring how
the `semver` crate interprets identifiers during comparison. -/
inductive PreId where
  | num (n : Nat)
  | alnum (s : String)
deriving DecidableEq

def PreId.cmp : PreId → PreId → Ordering
  | .num a, .num b => natCmp a b
  | .num _, .alnum _ => .lt
  | .alnum _, .num _ => .gt
  | .alnum a, .alnum b => strCmp a b

theorem preIdCmp_self (a : PreId) : PreId.cmp a a = .eq := by
  cases a <;> simp [PreId.cmp, natCmp_self, strCmp_self]

def preIdListCmp : List PreId → List PreId → Ordering
  | [], [] => .eq
  | [], _ :: _ => .lt
  | _ :: _, [] => .gt
  | a :: as, b :: bs =>
    match PreId.cmp a b with
    | .eq => preIdListCmp as bs
    | o => o

theorem preIdListCmp_self (l : List PreId) : preIdListCmp l l = .eq := by
  induction l with
  | nil => rfl
  | cons a as ih => simp [preIdListCmp, preIdCmp_self, ih]

/-- Pre-release comparison: an empty pre-release (a full release) is
greater than any non-empty one; otherwise identifier lists compare
lexicographically. -/
def prerelCmp (a b : List PreId) : Ordering :=
  match a, b with
  | [], [] => .eq
  | [], _ :: _ => .gt
  | _ :: _, [] => .lt
  | _, _ => preIdListCmp a b

theorem prerelCmp_self (l : List PreId) : prerelCmp l l = .eq := by
  cases l <;> simp [prerelCmp, preIdListCmp_self]

theorem prerelCmp_nil_right (a : List PreId) :
    prerelCmp a [] = if a = [] then Ordering.eq else Ordering.lt := by
  cases a <;> simp [prerelCmp]

def isDigitChar (c : Char) : Bool :=
  48 ≤ c.toNat && c.toNat ≤ 57

def allDigits (s : String) : Bool :=
  !s.data.isEmpty && s.data.all isDigitChar

def dropLeadingZeros (l : List Char) : List Char :=
  match l with
  | '0' :: rest => dropLeadingZeros rest
  | _ => l

/-- Build-metadata identifier comparison: digit-only identifiers compare
numerically (length of the zero-trimmed digits, then the digits, then the
untrimmed length as tie-break for leading zeros); anything else compares
as a string. -/
def buildIdCmp (a b : String) : Ordering :=
  if allDigits a && allDigits b then
    let ta := dropLeadingZeros a.data
    let tb := dropLeadingZeros b.data
    ((natCmp ta.length tb.length).then (charListCmp ta tb)).then
      (natCmp a.data.length b.data.length)
  else
    strCmp a b

theorem buildIdCmp_self (a : String) : buildIdCmp a a = .eq := by
  simp [buildIdCmp, natCmp_self, charListCmp_self, strCmp_self, Ordering.then]

def buildIdListCmp : List String → List String → Ordering
  | [], [] => .eq
  | [], _ :: _ => .lt
  | _ :: _, [] => .gt
  | a :: as, b :: bs =>
    match buildIdCmp a b with
    | .eq => buildIdListCmp as bs
    | o => o

theorem buildIdListCmp_self (l : List String) : buildIdListCmp l l = .eq := by
  induction l with
  | nil => rfl
  | cons a as ih => simp [buildIdListCmp, buildIdCmp_self, ih]

/-- Build-metadata comparison: empty build metadata is less than any
non-empty build metadata. -/
def buildCmp (a b : List String) : Ordering :=
  match a, b with
  | [], [] => .eq
  | [], _ :: _ => .lt
  | _ :: _, [] => .gt
  | _, _ => buildIdListCmp a b

theorem buildCmp_self (l : List String) : buildCmp l l = .eq := by
  cases l <;> simp [buildCmp, buildIdListCmp_self]

/-- A semantic version as stored by `semver::Version`: the
major.minor.patch triple plus parsed pre-release identifiers and raw
build-metadata identifiers. -/
structure Version where
  major : Nat
  minor : Nat
  patch : Nat
  pre : List PreId
  build : List String
deriving DecidableEq

/-- Total order on versions used by `remote > local` in
`Solc::ensure_installed` and by the sortedness assumption of
`Solc::find_matching_installation`. -/
def Version.cmp (a b : Version) : Ordering :=
  (natCmp a.major b.major).then
    ((natCmp a.minor b.minor).then
      ((natCmp a.patch b.patch).then
        ((prerelCmp a.pre b.pre).then (buildCmp a.build b.build))))

theorem versionCmp_self (v : Version) : Version.cmp v v = .eq := by
  simp [Version.cmp, natCmp_self, prerelCmp_self, buildCmp_self, Ordering.then]

def versionLe (a b : Version) : Prop :=
  Version.cmp a b ≠ Ordering.gt

instance (a b : Version) : Decidable (versionLe a b) := by
  unfold versionLe; infer_instance

theorem versionLe_refl (v : Version) : versionLe v v := by
  simp [versionLe, versionCmp_self]

/-- Boolean strict comparison `a > b`, as used by `if remote > local`. -/
def versionGtB (a b : Version) : Bool :=
  Version.cmp a b == .gt

/-- Boolean strict comparison `a < b`, as used by the Windows pre-0.7.2
checksum exception. -/
def versionLtB (a b : Version) : Bool :=
  Version.cmp a b == .lt

/-! ## Version requirements and the `semver` matching semantics

`semver::VersionReq` is a comparator list; `VersionReq::matches` requires
every comparator to match, and additionally refuses any version carrying a
pre-release unless some comparator with the same triple also carries one.
The evaluation functions below mirror the crate's `eval` logic, which is
what `Solc::find_matching_installation` and `Solc::configure_cmd` call. -/

inductive Op where
  | exact | greater | greaterEq | less | lessEq | tilde | caret | wildcard
deriving DecidableEq

structure Comparator where
  op : Op
  major : Nat
  minor : Option Nat
  patch : Option Nat
  pre : List PreId
deriving DecidableEq

def VersionReq := List Comparator

def matches_exact (c : Comparator) (v : Version) : Bool :=
  v.major == c.major
  && (match c.minor with | none => true | some m => v.minor == m)
  && (match c.patch with | none => true | some p => v.patch == p)
  && v.pre == c.pre

def matches_greater (c : Comparator) (v : Version) : Bool :=
  if v.major != c.major then decide (c.major < v.major)
  else match c.minor with
  | none => false
  | some minor =>
    if v.minor != minor then decide (minor < v.minor)
    else match c.patch with
    | none => false
    | some patch =>
      if v.patch != patch then decide (patch < v.patch)
      else prerelCmp v.pre c.pre == .gt

def matches_less (c : Comparator) (v : Version) : Bool :=
  if v.major != c.major then decide (v.major < c.major)
  else match c.minor with
  | none => false
  | some minor =>
    if v.minor != minor then decide (v.minor < minor)
    else match c.patch with
    | none => false
    | some patch =>
      if v.patch != patch then decide (v.patch < patch)
      else prerelCmp v.pre c.pre == .lt

def matches_tilde (c : Comparator) (v : Version) : Bool :=
  if v.major != c.major then false
  else match c.minor with
  | none => prerelCmp v.pre c.pre != .lt
  | some minor =>
    if v.minor != minor then false
    else match c.patch with
    | none => prerelCmp v.pre c.pre != .lt
    | some patch =>
      if v.patch != patch then decide (patch < v.patch)
      else prerelCmp v.pre c.pre != .lt

def matches_caret (c : Comparator) (v : Version) : Bool :=
  if v.major != c.major then false
  else match c.minor with
  | none => true
  | some minor =>
    match c.patch with
    | none =>
      if 0 < c.major then decide (minor ≤ v.minor) else v.minor == minor
    | some patch =>
      if 0 < c.major then
        (if v.minor != minor then decide (minor < v.minor)
         else if v.patch != patch then decide (patch < v.patch)
         else prerelCmp v.pre c.pre != .lt)
      else if 0 < minor then
        (if v.minor != minor then false
         else if v.patch != patch then decide (patch < v.patch)
         else prerelCmp v.pre c.pre != .lt)
      else if v.minor != minor || v.patch != patch then false
      else prerelCmp v.pre c.pre != .lt

def matches_impl (c : Comparator) (v : Version) : Bool :=
  match c.op with
  | .exact | .wildcard => matches_exact c v
  | .greater => matches_greater c v
  | .greaterEq => matches_exact c v || matches_greater c v
  | .less => matches_less c v
  | .lessEq => matches_exact c v || matches_less c v
  | .tilde => matches_tilde c v
  | .caret => matches_caret c v

def pre_is_compatible (c : Comparator) (v : Version) : Bool :=
  c.major == v.major && c.minor == some v.minor && c.patch == some v.patch
    && !c.pre.isEmpty

def matches_req (req : VersionReq) (v : Version) : Bool :=
  req.all (fun c => matches_impl c v)
  && (v.pre.isEmpty || req.any (fun c => pre_is_compatible c v))

/-- `SUPPORTS_BASE_PATH`: the parsed form of `>=0.6.9`. -/
def SUPPORTS_BASE_PATH : VersionReq :=
  [{ op := .greaterEq, major := 0, minor := some 6, patch := some 9, pre := [] }]

/-- `SUPPORTS_INCLUDE_PATH`: the parsed form of `>=0.8.8`. -/
def SUPPORTS_INCLUDE_PATH : VersionReq :=
  [{ op := .greaterEq, major := 0, minor := some 8, patch := some 8, pre := [] }]

/-! ## Errors

`SolcError`, restricted to the variants the embedded functions construct.
Payloads irrelevant to the claims (paths, messages) are kept as plain
strings or byte lists. -/

inductive SolcError where
  /-- `SolcError::Io`, carrying the offending path. -/
  | io (path : String)
  /-- `SolcError::InvalidUtf8`: compiler stdout is not valid UTF-8. -/
  | invalidUtf8
  /-- `SolcError::SerdeJson`: a `serde_json` deserialization error. -/
  | serdeJson (msg : String)
  /-- `SolcError::solc_output`: subprocess exited unsuccessfully; carries
  the captured status, stdout and stderr. -/
  | solcOutput (exitSuccess : Bool) (stdout stderr : List Nat)
  /-- `SolcError::VersionNotFound`. -/
  | versionNotFound
  /-- `SolcError::ChecksumNotFound` for the given version. -/
  | checksumNotFound (version : Version)
  /-- `SolcError::ChecksumMismatch`, carrying expected and detected
  digests (as raw bytes here) and the file path. -/
  | checksumMismatch (expected detected : List Nat) (file : String)
  /-- A `semver` parse error propagated through `?`. -/
  | semver
  /-- `SolcError::msg(...)`. -/
  | msg (s : String)
deriving DecidableEq

/-! ## Version resolution (`Solc::find_matching_installation`,
`Solc::ensure_installed`) -/

/-- `Solc::find_matching_installation`: iterate the candidate list in
reverse and return the first (i.e. last-in-ascending-order) version that
satisfies the requirement. -/
def find_matching_installation (versions : List Version) (required_version : VersionReq) :
    Option Version :=
  versions.reverse.find? (fun version => matches_req required_version version)

/-- `Solc::ensure_installed`, with the environment made explicit: `locals`
is what `Self::installed_versions()` returned, `remotes` is `RELEASES.1`,
and `install` is the outcome of `Self::blocking_install` for a given
version.  The returned `Bool` records whether an install was performed. -/
def ensure_installed (install : Version → Except SolcError Unit)
    (locals remotes : List Version) (sol_version : VersionReq) :
    Except SolcError (Version × Bool) :=
  match find_matching_installation locals sol_version,
        find_matching_installation remotes sol_version with
  | some l, none => .ok (l, false)
  | some l, some r =>
    if versionGtB r l then
      match install r with
      | .ok _ => .ok (r, true)
      | .error e => .error e
    else .ok (l, false)
  | none, some r =>
    match install r with
    | .ok _ => .ok (r, true)
    | .error e => .error e
  | none, none => .error .versionNotFound

/-- On a list that descends from left to right, `find?` returns a
satisfying element that dominates every satisfying element of the list. -/
theorem find_first_match_max (p : Version → Bool) :
    ∀ l : List Version, l.Pairwise (fun a b => versionLe b a) →
      (∀ v, l.find? p = some v →
        p v = true ∧ v ∈ l ∧ ∀ u ∈ l, p u = true → versionLe u v) ∧
      (l.find? p = none → ∀ u ∈ l, p u = false)
  | [], _ => by simp
  | a :: t, h => by
    rcases List.pairwise_cons.1 h with ⟨ha, ht⟩
    by_cases hp : p a = true
    · refine ⟨?_, ?_⟩
      · intro v hv
        rw [List.find?_cons_of_pos _ hp] at hv
        cases hv
        refine ⟨hp, List.mem_cons_self a t, ?_⟩
        intro u hu _
        rcases List.mem_cons.1 hu with rfl | hu
        · exact versionLe_refl u
        · exact ha u hu
      · intro hnone
        rw [List.find?_cons_of_pos _ hp] at hnone
        cases hnone
    · have hp' : p a = false := by simpa using hp
      have IH := find_first_match_max p t ht
      refine ⟨?_, ?_⟩
      · intro v hv
        rw [List.find?_cons_of_neg _ (by simp [hp'])] at hv
        obtain ⟨h1, h2, h3⟩ := IH.1 v hv
        refine ⟨h1, List.mem_cons_of_mem a h2, ?_⟩
        intro u hu hpu
        rcases List.mem_cons.1 hu with rfl | hu
        · rw [hp'] at hpu; cases hpu
        · exact h3 u hu hpu
      · intro hnone
        rw [List.find?_cons_of_neg _ (by simp [hp'])] at hnone
        intro u hu
        rcases List.mem_cons.1 hu with rfl | hu
        · exact hp'
        · exact IH.2 hnone u hu

/-- C1: on a version list sorted ascending, `find_matching_installation`
returns a satisfying version that is greatest among the versions of the
list satisfying the requirement, and returns `none` exactly when no
element of the list satisfies the requirement. -/
theorem find_matching_installation_max (versions : List Version) (req : VersionReq)
    (hsorted : versions.Pairwise versionLe) :
    (∀ v, find_matching_installation versions req = some v →
      matches_req req v = true ∧ v ∈ versions ∧
        ∀ u ∈ versions, matches_req req u = true → versionLe u v) ∧
    (find_matching_installation versions req = none →
      ∀ u ∈ versions, matches_req req u = false) := by
  have hrev : versions.reverse.Pairwise (fun a b => versionLe b a) := by
    rw [List.pairwise_reverse]; exact hsorted
  have h := find_first_match_max (fun v => matches_req req v) versions.reverse hrev
  unfold find_matching_installation
  refine ⟨?_, ?_⟩
  · intro v hv
    obtain ⟨h1, h2, h3⟩ := h.1 v hv
    exact ⟨h1, List.mem_reverse.1 h2,
      fun u hu hpu => h3 u (List.mem_reverse.2 hu) hpu⟩
  · intro hn u hu
    exact h.2 hn u (List.mem_reverse.2 hu)

def mkVersion (a b c : Nat) : Version :=
  { major := a, minor := b, patch := c, pre := [], build := [] }

/-- The requirement `>=0.6.0, <0.8.0` used as a concrete test input. -/
def reqSample : VersionReq :=
  [{ op := .greaterEq, major := 0, minor := some 6, patch := some 0, pre := [] },
   { op := .less, major := 0, minor := some 8, patch := some 0, pre := [] }]

/-- Witness for C1 at a concrete sorted list: among `0.5.0 < 0.6.9 < 0.7.6
< 0.8.1` and the requirement `>=0.6.0, <0.8.0`, the result is a maximal
satisfying element. -/
theorem find_matching_installation_max_witness :
    [mkVersion 0 5 0, mkVersion 0 6 9, mkVersion 0 7 6,
      mkVersion 0 8 1].Pairwise versionLe ∧
    ((∀ v, find_matching_installation
        [mkVersion 0 5 0, mkVersion 0 6 9, mkVersion 0 7 6, mkVersion 0 8 1]
        reqSample = some v →
      matches_req reqSample v = true ∧
        v ∈ [mkVersion 0 5 0, mkVersion 0 6 9, mkVersion 0 7 6, mkVersion 0 8 1] ∧
        ∀ u ∈ [mkVersion 0 5 0, mkVersion 0 6 9, mkVersion 0 7 6, mkVersion 0 8 1],
          matches_req reqSample u = true → versionLe u v) ∧
    (find_matching_installation
        [mkVersion 0 5 0, mkVersion 0 6 9, mkVersion 0 7 6, mkVersion 0 8 1]
        reqSample = none →
      ∀ u ∈ [mkVersion 0 5 0, mkVersion 0 6 9, mkVersion 0 7 6, mkVersion 0 8 1],
        matches_req reqSample u = false)) :=
  ⟨by decide, find_matching_installation_max _ _ (by decide)⟩

/-- C2: `ensure_installed` follows the decision table of the resolver:
local-only match is returned without installing; with both matches the
remote is installed and returned only when strictly greater than the
local match; remote-only match is installed and returned; with no match
the result is `VersionNotFound`. -/
theorem ensure_installed_decision_table (install : Version → Except SolcError Unit)
    (locals remotes : List Version) (req : VersionReq) :
    (∀ l, find_matching_installation locals req = some l →
      find_matching_installation remotes req = none →
      ensure_installed install locals remotes req = .ok (l, false)) ∧
    (∀ l r, find_matching_installation locals req = some l →
      find_matching_installation remotes req = some r →
      versionGtB r l = true → install r = .ok () →
      ensure_installed install locals remotes req = .ok (r, true)) ∧
    (∀ l r, find_matching_installation locals req = some l →
      find_matching_installation remotes req = some r →
      versionGtB r l = false →
      ensure_installed install locals remotes req = .ok (l, false)) ∧
    (∀ r, find_matching_installation locals req = none →
      find_matching_installation remotes req = some r →
      install r = .ok () →
      ensure_installed install locals remotes req = .ok (r, true)) ∧
    (find_matching_installation locals req = none →
      find_matching_installation remotes req = none →
      ensure_installed install locals remotes req = .error .versionNotFound) := by
  refine ⟨?_, ?_, ?_, ?_, ?_⟩
  · intro l h1 h2; simp [ensure_installed, h1, h2]
  · intro l r h1 h2 h3 h4; simp [ensure_installed, h1, h2, h3, h4]
  · intro l r h1 h2 h3; simp [ensure_installed, h1, h2, h3]
  · intro r h1 h2 h3; simp [ensure_installed, h1, h2, h3]
  · intro h1 h2; simp [ensure_installed, h1, h2]

/-- Witness for C2: with local match `0.7.6`, remote match `0.7.8` and a
succeeding installer, the remote version is installed and returned. -/
theorem ensure_installed_decision_table_witness :
    ensure_installed (fun _ => .ok ()) [mkVersion 0 5 0, mkVersion 0 7 6]
      [mkVersion 0 7 8, mkVersion 0 8 1] reqSample = .ok (mkVersion 0 7 8, true) :=
  (ensure_installed_decision_table (fun _ => .ok ()) _ _ _).2.1
    (mkVersion 0 7 6) (mkVersion 0 7 8) (by decide) (by decide) (by decide) rfl

/-! ## The compiler handle and command construction (`Solc::configure_cmd`) -/

/-- The `Solc` handle.  Paths are modelled as strings; the two `BTreeSet`
fields are modelled as lists (the claims do not depend on the set's
sorted-unique iteration order). -/
structure Solc where
  solc : String
  version : Version
  base_path : Option String
  allow_paths : List String
  include_paths : List String
deriving DecidableEq

/-- `Solc::version_short`: the version with pre-release and build
metadata stripped. -/
def version_short (v : Version) : Version :=
  { major := v.major, minor := v.minor, patch := v.patch, pre := [], build := [] }

/-- A built `std::process::Command`: program, arguments, working
directory, and whether the three standard streams are piped. -/
structure Cmd where
  program : String
  args : List String
  current_dir : Option String
  piped : Bool
deriving DecidableEq

/-- The `--allow-paths` fragment of `configure_cmd`: one flag plus all
allow-paths joined by commas, when the set is non-empty. -/
def allow_paths_args (s : Solc) : List String :=
  if s.allow_paths.isEmpty then []
  else ["--allow-paths", String.intercalate "," s.allow_paths]

/-- `Solc::configure_cmd`. -/
def configure_cmd (s : Solc) : Cmd :=
  let args := allow_paths_args s
  match s.base_path with
  | some base_path =>
    let args := args ++
      (if matches_req SUPPORTS_BASE_PATH s.version then
        (if matches_req SUPPORTS_INCLUDE_PATH s.version then
          (s.include_paths.filter (fun p => p != base_path)).flatMap
            (fun p => ["--include-path", p])
         else []) ++ ["--base-path", base_path]
       else [])
    { program := s.solc, args := args ++ ["--standard-json"],
      current_dir := some base_path, piped := true }
  | none =>
    { program := s.solc, args := args ++ ["--standard-json"],
      current_dir := none, piped := true }

/-- The version's triple is (lexicographically) before `a.b.c`. -/
def tripleBefore (v : Version) (a b c : Nat) : Prop :=
  v.major < a ∨ (v.major = a ∧ (v.minor < b ∨ (v.minor = b ∧ v.patch < c)))

instance (v : Version) (a b c : Nat) : Decidable (tripleBefore v a b c) := by
  unfold tripleBefore; infer_instance

/-- The parsed form of a requirement `>=a.b.c`. -/
def geReq (a b c : Nat) : VersionReq :=
  [{ op := .greaterEq, major := a, minor := some b, patch := some c, pre := [] }]

/-- The `semver` matching semantics of a requirement `>=a.b.c` (with no
pre-release on the comparator): the version must itself carry no
pre-release, and its triple must not be before `a.b.c`.  Build metadata
is ignored. -/
theorem matches_req_ge (a b c : Nat) (v : Version) :
    matches_req (geReq a b c) v
      = (v.pre.isEmpty && !decide (tripleBefore v a b c)) := by
  obtain ⟨ma, mi, pa, pre, bld⟩ := v
  simp only [geReq, matches_req, List.all_cons, List.all_nil, List.any_cons, List.any_nil,
    matches_impl, matches_exact, matches_greater, pre_is_compatible]
  cases pre with
  | nil =>
    rw [Bool.eq_iff_iff]
    simp [prerelCmp_nil_right, tripleBefore,
      show (Ordering.eq == Ordering.gt) = false from rfl]
    split_ifs <;> omega
  | cons p ps =>
    simp

theorem supports_base_path_eq (v : Version) :
    matches_req SUPPORTS_BASE_PATH v
      = (v.pre.isEmpty && !decide (tripleBefore v 0 6 9)) :=
  matches_req_ge 0 6 9 v

theorem supports_include_path_eq (v : Version) :
    matches_req SUPPORTS_INCLUDE_PATH v
      = (v.pre.isEmpty && !decide (tripleBefore v 0 8 8)) :=
  matches_req_ge 0 8 8 v

theorem getLast?_append_singleton (l : List String) (a : String) :
    (l ++ [a]).getLast? = some a := by
  simp [List.getLast?_concat]

/-- A handle whose version `0.7.0-alpha` lies in the interval
`[0.6.9, 0.8.8)` (under semver ordering) and has a base path set. -/
def solcPreRelease : Solc :=
  { solc := "solc",
    version := { major := 0, minor := 7, patch := 0,
                 pre := [.alnum "alpha"], build := [] },
    base_path := some "/project",
    allow_paths := [],
    include_paths := [] }

/-- Counterexample to C3 as stated: `0.7.0-alpha` is at least `0.6.9` and
below `0.8.8` in semver order, and its handle has a base path set, yet the
built command does not contain `--base-path` (because `semver`'s
`>=0.6.9` requirement rejects every pre-release version). -/
theorem configure_cmd_range_counterexample :
    versionLe (mkVersion 0 6 9) solcPreRelease.version ∧
    versionLtB solcPreRelease.version (mkVersion 0 8 8) = true ∧
    solcPreRelease.base_path = some "/project" ∧
    "--base-path" ∉ (configure_cmd solcPreRelease).args := by
  refine ⟨by decide, by decide, rfl, by decide⟩

/-- C3 (amended): for a handle with a base path set, the working directory
is always the base path and `--standard-json` is always the final
argument.  If the version carries a pre-release tag or its triple is
before 0.6.9, no `--base-path`/`--include-path` flags are emitted; with no
pre-release and triple in [0.6.9, 0.8.8) exactly `--base-path` is
appended; with no pre-release and triple at least 0.8.8 every include path
different from the base path is passed via `--include-path`, the base path
itself is omitted from them, and `--base-path` is still appended. -/
theorem configure_cmd_spec (s : Solc) (bp : String) (h : s.base_path = some bp) :
    (configure_cmd s).current_dir = some bp ∧
    (configure_cmd s).args.getLast? = some "--standard-json" ∧
    (¬ (s.version.pre = [] ∧ ¬ tripleBefore s.version 0 6 9) →
      (configure_cmd s).args = allow_paths_args s ++ ["--standard-json"]) ∧
    ((s.version.pre = [] ∧ ¬ tripleBefore s.version 0 6 9 ∧
        tripleBefore s.version 0 8 8) →
      (configure_cmd s).args
        = allow_paths_args s ++ ["--base-path", bp, "--standard-json"]) ∧
    ((s.version.pre = [] ∧ ¬ tripleBefore s.version 0 8 8) →
      (configure_cmd s).args
        = allow_paths_args s
            ++ ((s.include_paths.filter (fun p => p != bp)).flatMap
                  (fun p => ["--include-path", p]))
            ++ ["--base-path", bp, "--standard-json"]) := by
  refine ⟨?_, ?_, ?_, ?_, ?_⟩
  · simp [configure_cmd, h]
  · simp only [configure_cmd, h]
    exact getLast?_append_singleton _ _
  · intro hc
    have hbase : matches_req SUPPORTS_BASE_PATH s.version = false := by
      rw [supports_base_path_eq]
      by_cases hp : s.version.pre = []
      · have hbefore : tripleBefore s.version 0 6 9 := by
          by_contra hnb
          exact hc ⟨hp, hnb⟩
        simp [hbefore]
      · simp [List.isEmpty_iff, hp]
    simp [configure_cmd, h, hbase]
  · rintro ⟨hp, h69, h88⟩
    have hbase : matches_req SUPPORTS_BASE_PATH s.version = true := by
      rw [supports_base_path_eq]
      simp [List.isEmpty_iff, hp, h69]
    have hinc : matches_req SUPPORTS_INCLUDE_PATH s.version = false := by
      rw [supports_include_path_eq]
      simp [h88]
    simp [configure_cmd, h, hbase, hinc]
  · rintro ⟨hp, h88⟩
    have h69 : ¬ tripleBefore s.version 0 6 9 := by
      unfold tripleBefore at h88 ⊢
      omega
    have hbase : matches_req SUPPORTS_BASE_PATH s.version = true := by
      rw [supports_base_path_eq]
      simp [List.isEmpty_iff, hp, h69]
    have hinc : matches_req SUPPORTS_INCLUDE_PATH s.version = true := by
      rw [supports_include_path_eq]
      simp [List.isEmpty_iff, hp, h88]
    simp [configure_cmd, h, hbase, hinc]

/-- A release handle at version 0.8.10 with one include path equal to the
base path and one other include path. -/
def solc0810 : Solc :=
  { solc := "solc",
    version := mkVersion 0 8 10,
    base_path := some "/project",
    allow_paths := [],
    include_paths := ["/lib", "/project"] }

/-- Witness for C3 (amended) at version 0.8.10: the include path equal to
the base path is dropped, the other is kept, `--base-path` is appended and
`--standard-json` closes the argument list. -/
theorem configure_cmd_spec_witness :
    (configure_cmd solc0810).current_dir = some "/project" ∧
    (configure_cmd solc0810).args
      = ["--include-path", "/lib", "--base-path", "/project", "--standard-json"] := by
  have h := configure_cmd_spec solc0810 "/project" rfl
  refine ⟨h.1, ?_⟩
  have h5 := h.2.2.2.2 ⟨rfl, by decide⟩
  rw [h5]
  decide

/-- A version `0.8.19-nightly`, whose normalized triple passes both
feature gates but whose pre-release tag makes `matches` reject it. -/
def vNightly : Version :=
  { major := 0, minor := 8, patch := 19, pre := [.alnum "nightly"], build := [] }

/-- The nightly handle and its metadata-stripped twin. -/
def solcNightly : Solc :=
  { solc := "solc", version := vNightly, base_path := some "/p",
    allow_paths := [], include_paths := [] }

def solcNightlyShort : Solc :=
  { solc := "solc", version := version_short vNightly, base_path := some "/p",
    allow_paths := [], include_paths := [] }

/-- Counterexample to C8 as stated: `0.8.19-nightly` is not gated
identically to its metadata-stripped form `0.8.19` — the stripped version
passes the base-path gate, the pre-release does not, and the built
commands differ. -/
theorem feature_gate_strip_counterexample :
    matches_req SUPPORTS_BASE_PATH vNightly ≠
      matches_req SUPPORTS_BASE_PATH (version_short vNightly) ∧
    (configure_cmd solcNightly).args ≠ (configure_cmd solcNightlyShort).args := by
  refine ⟨by decide, by decide⟩

/-- C8 (amended): the feature gates depend only on the normalized
major.minor.patch triple together with whether the pre-release component
is empty: build metadata never affects gating, and a version carrying any
non-empty pre-release satisfies neither gate. -/
theorem feature_gate_normalized (v : Version) :
    matches_req SUPPORTS_BASE_PATH v
      = (v.pre.isEmpty && !decide (tripleBefore v 0 6 9)) ∧
    matches_req SUPPORTS_INCLUDE_PATH v
      = (v.pre.isEmpty && !decide (tripleBefore v 0 8 8)) ∧
    (v.pre = [] →
      matches_req SUPPORTS_BASE_PATH v
        = matches_req SUPPORTS_BASE_PATH (version_short v) ∧
      matches_req SUPPORTS_INCLUDE_PATH v
        = matches_req SUPPORTS_INCLUDE_PATH (version_short v)) := by
  refine ⟨supports_base_path_eq v, supports_include_path_eq v, ?_⟩
  intro hp
  constructor
  · rw [supports_base_path_eq, supports_base_path_eq]
    simp [version_short, tripleBefore, hp, decide_eq_decide]
  · rw [supports_include_path_eq, supports_include_path_eq]
    simp [version_short, tripleBefore, hp, decide_eq_decide]

/-- Witness for C8 (amended): at `0.8.19-nightly` both gates compute as
the characterization says (both are false), and at the stripped `0.8.19`
with no pre-release the gates agree with the stripped form. -/
theorem feature_gate_normalized_witness :
    (matches_req SUPPORTS_BASE_PATH vNightly
      = (vNightly.pre.isEmpty && !decide (tripleBefore vNightly 0 6 9))) ∧
    (matches_req SUPPORTS_BASE_PATH (version_short vNightly)
      = matches_req SUPPORTS_BASE_PATH (version_short (version_short vNightly))) :=
  ⟨(feature_gate_normalized vNightly).1,
    ((feature_gate_normalized (version_short vNightly)).2.2 rfl).1⟩

/-! ## UTF-8

Strict decoding (`std::str::from_utf8`, also performed internally by
`serde_json::from_slice`) and lossy decoding (`String::from_utf8_lossy`,
exact on valid input; each invalid byte yields U+FFFD). -/

def contByte (b : Nat) : Bool := 0x80 ≤ b && b ≤ 0xbf

/-- Strict UTF-8 decoding of a byte sequence; `none` on any invalid
sequence, following the standard well-formedness ranges. -/
def decodeUtf8? : List Nat → Option (List Char)
  | [] => some []
  | b :: rest =>
    if b ≤ 0x7f then (decodeUtf8? rest).map (fun cs => Char.ofNat b :: cs)
    else if 0xc2 ≤ b && b ≤ 0xdf then
      match rest with
      | b1 :: rest1 =>
        if contByte b1 then
          (decodeUtf8? rest1).map
            (fun cs => Char.ofNat ((b - 0xc0) * 0x40 + (b1 - 0x80)) :: cs)
        else none
      | [] => none
    else if 0xe0 ≤ b && b ≤ 0xef then
      match rest with
      | b1 :: b2 :: rest2 =>
        if (if b = 0xe0 then 0xa0 ≤ b1 && b1 ≤ 0xbf
            else if b = 0xed then 0x80 ≤ b1 && b1 ≤ 0x9f
            else contByte b1) && contByte b2 then
          (decodeUtf8? rest2).map
            (fun cs =>
              Char.ofNat ((b - 0xe0) * 0x1000 + (b1 - 0x80) * 0x40 + (b2 - 0x80)) :: cs)
        else none
      | _ => none
    else if 0xf0 ≤ b && b ≤ 0xf4 then
      match rest with
      | b1 :: b2 :: b3 :: rest3 =>
        if (if b = 0xf0 then 0x90 ≤ b1 && b1 ≤ 0xbf
            else if b = 0xf4 then 0x80 ≤ b1 && b1 ≤ 0x8f
            else contByte b1) && contByte b2 && contByte b3 then
          (decodeUtf8? rest3).map
            (fun cs =>
              Char.ofNat ((b - 0xf0) * 0x40000 + (b1 - 0x80) * 0x1000
                + (b2 - 0x80) * 0x40 + (b3 - 0x80)) :: cs)
        else none
      | _ => none
    else none

/-- `str::from_utf8(..).is_ok()`: the byte sequence is valid UTF-8. -/
def utf8Valid (bytes : List Nat) : Bool :=
  (decodeUtf8? bytes).isSome

/-- Fuel-driven kernel of lossy UTF-8 decoding; the fuel only needs to
exceed the number of bytes, and every recursive call consumes at least
one byte. -/
def decodeUtf8LossyFuel : Nat → List Nat → List Char
  | 0, _ => []
  | _, [] => []
  | fuel + 1, b :: rest =>
    if b ≤ 0x7f then Char.ofNat b :: decodeUtf8LossyFuel fuel rest
    else if 0xc2 ≤ b && b ≤ 0xdf then
      match rest with
      | b1 :: rest1 =>
        if contByte b1 then
          Char.ofNat ((b - 0xc0) * 0x40 + (b1 - 0x80))
            :: decodeUtf8LossyFuel fuel rest1
        else Char.ofNat 0xfffd :: decodeUtf8LossyFuel fuel rest
      | [] => [Char.ofNat 0xfffd]
    else if 0xe0 ≤ b && b ≤ 0xef then
      match rest with
      | b1 :: b2 :: rest2 =>
        if (if b = 0xe0 then 0xa0 ≤ b1 && b1 ≤ 0xbf
            else if b = 0xed then 0x80 ≤ b1 && b1 ≤ 0x9f
            else contByte b1) && contByte b2 then
          Char.ofNat ((b - 0xe0) * 0x1000 + (b1 - 0x80) * 0x40 + (b2 - 0x80))
            :: decodeUtf8LossyFuel fuel rest2
        else Char.ofNat 0xfffd :: decodeUtf8LossyFuel fuel rest
      | _ => Char.ofNat 0xfffd :: decodeUtf8LossyFuel fuel rest
    else if 0xf0 ≤ b && b ≤ 0xf4 then
      match rest with
      | b1 :: b2 :: b3 :: rest3 =>
        if (if b = 0xf0 then 0x90 ≤ b1 && b1 ≤ 0xbf
            else if b = 0xf4 then 0x80 ≤ b1 && b1 ≤ 0x8f
            else contByte b1) && contByte b2 && contByte b3 then
          Char.ofNat ((b - 0xf0) * 0x40000 + (b1 - 0x80) * 0x1000
            + (b2 - 0x80) * 0x40 + (b3 - 0x80))
            :: decodeUtf8LossyFuel fuel rest3
        else Char.ofNat 0xfffd :: decodeUtf8LossyFuel fuel rest
      | _ => Char.ofNat 0xfffd :: decodeUtf8LossyFuel fuel rest
    else Char.ofNat 0xfffd :: decodeUtf8LossyFuel fuel rest

/-- Lossy UTF-8 decoding (`String::from_utf8_lossy`): identical to strict
decoding on valid input; on an invalid sequence a U+FFFD replacement
character is emitted and decoding resumes at the next byte. -/
def decodeUtf8Lossy (bytes : List Nat) : List Char :=
  decodeUtf8LossyFuel bytes.length bytes

/-! ## The invocation engine

`compile_as` / `async_compile_as`, modelled as functions of the raw
subprocess outcome.  The caller-chosen deserializer `D` (the
`serde_json::from_str` call at the chosen output type) is a parameter: it
consumes the decoded text.  `serde_json::from_slice`, used by the async
path, validates UTF-8 itself and reports failure as one of its own
(`SerdeJson`) errors, never as `SolcError::InvalidUtf8`. -/

/-- The raw outcome of a finished subprocess (`std::process::Output`):
whether the exit status was a success, and the captured stdout/stderr
bytes. -/
structure ProcOutput where
  success : Bool
  stdout : List Nat
  stderr : List Nat
deriving DecidableEq

instance {ε α : Type} [DecidableEq ε] [DecidableEq α] : DecidableEq (Except ε α) :=
  fun x y =>
    match x, y with
    | .error a, .error b =>
      if h : a = b then .isTrue (by rw [h])
      else .isFalse (by intro hc; cases hc; exact h rfl)
    | .error _, .ok _ => .isFalse (by intro hc; cases hc)
    | .ok _, .error _ => .isFalse (by intro hc; cases hc)
    | .ok a, .ok b =>
      if h : a = b then .isTrue (by rw [h])
      else .isFalse (by intro hc; cases hc; exact h rfl)

/-- The fixed message `serde_json` uses for invalid UTF-8 input to
`from_slice`. -/
def fromSliceUtf8Msg : String := "invalid unicode code point"

/-- The free function `compile_output` (mod.rs line 599): return stdout on
success, a `solc_output` error otherwise. -/
def compile_output (output : ProcOutput) : Except SolcError (List Nat) :=
  if output.success then .ok output.stdout
  else .error (.solcOutput output.success output.stdout output.stderr)

/-- `Solc::compile_as`: obtain the raw stdout, validate UTF-8 (a dedicated
`InvalidUtf8` error), then deserialize. -/
def compile_as {D : Type} (deser : List Char → Except String D)
    (output : ProcOutput) : Except SolcError D :=
  match compile_output output with
  | .error e => .error e
  | .ok bytes =>
    match decodeUtf8? bytes with
    | none => .error .invalidUtf8
    | some s =>
      match deser s with
      | .ok d => .ok d
      | .error m => .error (.serdeJson m)

/-- `Solc::async_compile_as`: obtain the raw stdout and hand the bytes
straight to `serde_json::from_slice`, which performs its own UTF-8 check
and reports invalid bytes as a `SerdeJson` error. -/
def async_compile_as {D : Type} (deser : List Char → Except String D)
    (output : ProcOutput) : Except SolcError D :=
  match compile_output output with
  | .error e => .error e
  | .ok bytes =>
    match decodeUtf8? bytes with
    | none => .error (.serdeJson fromSliceUtf8Msg)
    | some s =>
      match deser s with
      | .ok d => .ok d
      | .error m => .error (.serdeJson m)

/-- C4 (refuted): on a successful subprocess outcome whose stdout is the
single invalid byte 0xFF, the blocking path reports `InvalidUtf8` while
the non-blocking path reports a `SerdeJson` error, so the two paths are
distinguishable by the error kind; on valid-UTF-8 stdout the two paths
agree. -/
theorem compile_paths_divergence :
    compile_as (fun _ => Except.ok ()) (ProcOutput.mk true [0xff] [])
      = .error .invalidUtf8 ∧
    async_compile_as (fun _ => Except.ok ()) (ProcOutput.mk true [0xff] [])
      = .error (.serdeJson fromSliceUtf8Msg) ∧
    compile_as (fun _ => Except.ok ()) (ProcOutput.mk true [0xff] [])
      ≠ async_compile_as (fun _ => Except.ok ()) (ProcOutput.mk true [0xff] []) ∧
    (∀ (D : Type) (deser : List Char → Except String D) (o : ProcOutput),
      utf8Valid o.stdout = true → compile_as deser o = async_compile_as deser o) := by
  refine ⟨rfl, rfl, by decide, ?_⟩
  intro D deser o hvalid
  unfold compile_as async_compile_as
  by_cases hs : o.success = true
  · have hco : compile_output o = .ok o.stdout := by
      simp [compile_output, hs]
    rw [hco]
    cases hd : decodeUtf8? o.stdout with
    | none =>
      exfalso
      unfold utf8Valid at hvalid
      rw [hd] at hvalid
      cases hvalid
    | some s => simp only [hd]
  · have hco : compile_output o
        = .error (.solcOutput o.success o.stdout o.stderr) := by
      simp [compile_output, hs]
    rw [hco]

/-- C6: on a successful subprocess outcome, `compile_as` fails with the
dedicated `InvalidUtf8` error exactly when the stdout bytes are not valid
UTF-8; deserialization failure on valid text surfaces as a distinct
`SerdeJson` error. -/
theorem compile_as_invalid_utf8_iff {D : Type} (deser : List Char → Except String D)
    (o : ProcOutput) (h : o.success = true) :
    (compile_as deser o = .error .invalidUtf8 ↔ utf8Valid o.stdout = false) ∧
    (utf8Valid o.stdout = true →
      compile_as deser o ≠ .error .invalidUtf8) := by
  have hco : compile_output o = .ok o.stdout := by
    simp [compile_output, h]
  refine ⟨?_, ?_⟩
  · unfold compile_as
    rw [hco]
    cases hd : decodeUtf8? o.stdout with
    | none => simp [utf8Valid, hd]
    | some s =>
      cases hds : deser s with
      | ok d => simp [utf8Valid, hd, hds]
      | error m => simp [utf8Valid, hd, hds]
  · intro hvalid
    unfold compile_as
    rw [hco]
    cases hd : decodeUtf8? o.stdout with
    | none => simp [utf8Valid, hd] at hvalid
    | some s =>
      cases hds : deser s with
      | ok d => simp [hd, hds]
      | error mm => simp [hd, hds]

/-- A concrete deserializer used for witnesses. -/
def deserNat : List Char → Except String Nat := fun _ => Except.ok 0

/-- Witness for C6 at the truncated two-byte sequence `[0xC8]`: the
blocking path reports `InvalidUtf8`, matching invalidity of the bytes. -/
theorem compile_as_invalid_utf8_iff_witness :
    (compile_as deserNat (ProcOutput.mk true [0xc8] []) = .error .invalidUtf8
      ↔ utf8Valid [0xc8] = false) ∧
    (utf8Valid [0xc8] = true →
      compile_as deserNat (ProcOutput.mk true [0xc8] []) ≠ .error .invalidUtf8) :=
  compile_as_invalid_utf8_iff deserNat (ProcOutput.mk true [0xc8] []) rfl

/-! ## Version probing (`Solc::version` → `version_from_output`)

`version_from_output` lossily decodes stdout, takes the last non-blank
line, repeatedly strips the `"Version: "` prefix, rewrites the vendor
token `".g++"` (invalid in semver build metadata because of the `+`
characters) to `".gcc"`, and parses the result with `semver`'s grammar. -/

/-- Split a character list at every occurrence of a separator (the
separators are consumed; `n` separators yield `n + 1` pieces). -/
def splitOnChar (sep : Char) : List Char → List (List Char)
  | [] => [[]]
  | x :: rest =>
    if x = sep then [] :: splitOnChar sep rest
    else
      match splitOnChar sep rest with
      | [] => [[x]]
      | l :: ls => (x :: l) :: ls

/-- Strip a single trailing carriage return, as Rust's `str::lines` does
for every `\n`-terminated line. -/
def stripCr (l : List Char) : List Char :=
  match l.getLast? with
  | some c => if c = '\r' then l.dropLast else l
  | none => l

/-- Rust's `str::lines`: split at `\n`, drop a trailing `\r` from each
`\n`-terminated line, and do not yield a final empty line for a trailing
newline. -/
def rustLines (s : List Char) : List (List Char) :=
  let ps := splitOnChar '\n' s
  let front := ps.dropLast.map stripCr
  match ps.getLast? with
  | some [] => front
  | some last => front ++ [last]
  | none => front

/-- The Unicode `White_Space` property, as tested by Rust's
`char::is_whitespace` (used through `str::trim` to detect blank lines). -/
def isRustWhitespace (c : Char) : Bool :=
  let n := c.toNat
  (0x09 ≤ n && n ≤ 0x0d) || n == 0x20 || n == 0x85 || n == 0xa0 || n == 0x1680
    || (0x2000 ≤ n && n ≤ 0x200a) || n == 0x2028 || n == 0x2029 || n == 0x202f
    || n == 0x205f || n == 0x3000

/-- `str::trim_start_matches("Version: ")`: remove every leading
repetition of the fixed prefix. -/
def stripVersionTag : List Char → List Char
  | 'V' :: 'e' :: 'r' :: 's' :: 'i' :: 'o' :: 'n' :: ':' :: ' ' :: rest =>
    stripVersionTag rest
  | s => s

/-- `String::replace(".g++", ".gcc")`: rewrite every non-overlapping
occurrence, scanning left to right. -/
def replaceGpp : List Char → List Char
  | '.' :: 'g' :: '+' :: '+' :: rest => '.' :: 'g' :: 'c' :: 'c' :: replaceGpp rest
  | c :: rest => c :: replaceGpp rest
  | [] => []

/-- ASCII alphanumeric or hyphen: the characters `semver` allows in
pre-release and build identifiers. -/
def isIdentChar (c : Char) : Bool :=
  isDigitChar c || (65 ≤ c.toNat && c.toNat ≤ 90)
    || (97 ≤ c.toNat && c.toNat ≤ 122) || c = '-'

def digitsToNat (l : List Char) : Nat :=
  l.foldl (fun acc c => acc * 10 + (c.toNat - 48)) 0

/-- A major/minor/patch field: non-empty digits, no leading zero, within
`u64`. -/
def parseNumericField (l : List Char) : Option Nat :=
  if l.isEmpty then none
  else if !l.all isDigitChar then none
  else if 1 < l.length && l.head? = some '0' then none
  else
    let n := digitsToNat l
    if n < 18446744073709551616 then some n else none

/-- A pre-release identifier: digit-only identifiers are numeric and must
not have a leading zero; otherwise alphanumeric-with-hyphen. -/
def parsePreId (l : List Char) : Option PreId :=
  if l.isEmpty then none
  else if !l.all isIdentChar then none
  else if l.all isDigitChar then
    if 1 < l.length && l.head? = some '0' then none
    else some (.num (digitsToNat l))
  else some (.alnum ⟨l⟩)

/-- A build identifier: non-empty, alphanumeric-with-hyphen (leading
zeros allowed). -/
def parseBuildId (l : List Char) : Option String :=
  if l.isEmpty then none
  else if !l.all isIdentChar then none
  else some ⟨l⟩

/-- Split at the first occurrence of a character: the part before it, and
(if present) the part after it. -/
def splitFirst (sep : Char) : List Char → List Char × Option (List Char)
  | [] => ([], none)
  | x :: rest =>
    if x = sep then ([], some rest)
    else
      match splitFirst sep rest with
      | (before, after) => (x :: before, after)

/-- `semver::Version::from_str`: `major.minor.patch`, an optional
`-`-introduced dot-separated pre-release, an optional `+`-introduced
dot-separated build-metadata section, nothing else. -/
def parseVersionChars (s : List Char) : Option Version :=
  let corePlus := splitFirst '+' s
  let coreMinus := splitFirst '-' corePlus.1
  match splitOnChar '.' coreMinus.1 with
  | [maS, miS, paS] =>
    match parseNumericField maS, parseNumericField miS, parseNumericField paS with
    | some major, some minor, some patch =>
      let preIds : Option (List PreId) :=
        match coreMinus.2 with
        | none => some []
        | some p => (splitOnChar '.' p).mapM parsePreId
      let buildIds : Option (List String) :=
        match corePlus.2 with
        | none => some []
        | some b => (splitOnChar '.' b).mapM parseBuildId
      match preIds, buildIds with
      | some pre, some build =>
        some { major := major, minor := minor, patch := patch,
               pre := pre, build := build }
      | _, _ => none
    | _, _, _ => none
  | _ => none

/-- `version_from_output` (mod.rs line 607). -/
def version_from_output (output : ProcOutput) : Except SolcError Version :=
  if output.success then
    let stdout := decodeUtf8Lossy output.stdout
    match ((rustLines stdout).filter
        (fun l => !l.all isRustWhitespace)).getLast? with
    | none => .error (.msg "Version not found in Solc output")
    | some line =>
      match parseVersionChars (replaceGpp (stripVersionTag line)) with
      | some v => .ok v
      | none => .error .semver
  else .error (.solcOutput output.success output.stdout output.stderr)

/-- The claim's concrete stdout: a header line, a blank line, the
`Version:` line with the `g++` vendor token, and a final newline. -/
def versionStdoutBytes : List Nat :=
  "solc, the solidity compiler\n\nVersion: 0.8.19+commit.abc123.Linux.g++\n".data.map
    Char.toNat

/-- C7: successful version-query output is parsed from the last non-blank
stdout line with the `"Version: "` prefix stripped and `.g++` normalized
to `.gcc` (without the rewrite the token is unparsable); the concrete
stdout from the claim yields version 0.8.19 with normalized build
metadata; a non-success exit status yields an error. -/
theorem version_from_output_spec :
    version_from_output (ProcOutput.mk true versionStdoutBytes [])
      = .ok { major := 0, minor := 8, patch := 19, pre := [],
              build := ["commit", "abc123", "Linux", "gcc"] } ∧
    parseVersionChars "0.8.19+commit.abc123.Linux.g++".data = none ∧
    parseVersionChars
        (replaceGpp (stripVersionTag "Version: 0.8.19+commit.abc123.Linux.g++".data))
      = some { major := 0, minor := 8, patch := 19, pre := [],
               build := ["commit", "abc123", "Linux", "gcc"] } ∧
    (∀ o : ProcOutput, o.success = false →
      version_from_output o = .error (.solcOutput false o.stdout o.stderr)) := by
  refine ⟨by decide, by decide, by decide, ?_⟩
  intro o h
  simp [version_from_output, h]

/-- Witness for C7's error clause at a concrete failing process
outcome. -/
theorem version_from_output_spec_witness :
    version_from_output (ProcOutput.mk false [] [104, 105])
      = .error (.solcOutput false [] [104, 105]) :=
  version_from_output_spec.2.2.2 (ProcOutput.mk false [] [104, 105]) rfl

/-! ## Integrity verification (`Solc::verify_checksum`)

The release catalog (`RELEASES`): its checksum table and the usability
flag `RELEASES.2` recording whether the release list deserialized.  The
SHA-256 digest function and the bytes read from the installed binary (or
`none` if the read failed) are passed in explicitly, as is whether the
target platform is Windows (the `cfg(windows)` pre-0.7.2 exception). -/

structure Releases where
  checksums : List (Version × List Nat)
  ok : Bool

/-- `svm::Releases::get_checksum` for a version. -/
def get_checksum (r : Releases) (v : Version) : Option (List Nat) :=
  (r.checksums.find? (fun kv => kv.1 == v)).map (fun kv => kv.2)

/-- `Solc::verify_checksum`.  The binary is read first (an unreadable
file is an `Io` error); with an unusable catalog the check is skipped;
on Windows versions before 0.7.2 are exempt; otherwise the SHA-256 of
the contents is compared with the catalog entry for the normalized
version. -/
def verify_checksum (sha256 : List Nat → List Nat) (releases : Releases)
    (onWindows : Bool) (fileContents : Option (List Nat)) (s : Solc) :
    Except SolcError Unit :=
  let version := version_short s.version
  match fileContents with
  | none => .error (.io "solc version path")
  | some content =>
    if !releases.ok then .ok ()
    else if onWindows && versionLtB version (mkVersion 0 7 2) then .ok ()
    else
      match get_checksum releases version with
      | none => .error (.checksumNotFound version)
      | some checksum_found =>
        let checksum_calc := sha256 content
        if checksum_calc == checksum_found then .ok ()
        else .error (.checksumMismatch checksum_found checksum_calc
            "solc version path")

/-- C5: with the catalog's usability flag false, `verify_checksum`
succeeds for every readable binary, whatever its contents, every digest
function, every platform and every handle. -/
theorem verify_checksum_unusable_catalog (sha256 : List Nat → List Nat)
    (releases : Releases) (onWindows : Bool) (content : List Nat) (s : Solc)
    (h : releases.ok = false) :
    verify_checksum sha256 releases onWindows (some content) s = .ok () := by
  simp [verify_checksum, h]

/-- Witness for C5: a corrupt binary against an unusable catalog still
verifies. -/
theorem verify_checksum_unusable_catalog_witness :
    verify_checksum (fun bytes => bytes) (Releases.mk [(mkVersion 0 8 18, [1, 2])] false)
      false (some [9, 9, 9]) solc0810 = .ok () :=
  verify_checksum_unusable_catalog (fun bytes => bytes)
    (Releases.mk [(mkVersion 0 8 18, [1, 2])] false) false [9, 9, 9] solc0810 rfl

/-! ## `Solc::compile_exact` and the output shape

`CompilerOutput` lives outside the embedded file; only the pieces
`compile_exact` touches are modelled: error list and the two
path-keyed maps.  Payloads are irrelevant to the claim and stubbed as
`Nat`. -/

structure CompilerOutput where
  errors : List String
  sources : List (String × Nat)
  contracts : List (String × Nat)
deriving DecidableEq

/-- `SolcInput`, reduced to its `sources` map (path → content). -/
structure SolcInput where
  sources : List (String × String)
deriving DecidableEq

/-- Modelled from the spec: `CompilerOutput::retain_files` is not under
`src/`; per `compile_exact`'s documentation it removes from the output
those files that are not in the given path collection. -/
def retain_files (files : List String) (out : CompilerOutput) : CompilerOutput :=
  { out with
    sources := out.sources.filter (fun kv => files.contains kv.1),
    contracts := out.contracts.filter (fun kv => files.contains kv.1) }

/-- `Solc::compile_exact`: run `compile` (abstracted as `compileFn`) and
retain only the files listed in the input's sources. -/
def compile_exact (compileFn : SolcInput → Except SolcError CompilerOutput)
    (input : SolcInput) : Except SolcError CompilerOutput :=
  match compileFn input with
  | .error e => .error e
  | .ok out => .ok (retain_files (input.sources.map (fun kv => kv.1)) out)

/-- C10: every source (and contract) path in a successful
`compile_exact` output is a key of the input's sources map, whatever the
raw compiler returned. -/
theorem compile_exact_filters_to_input
    (compileFn : SolcInput → Except SolcError CompilerOutput)
    (input : SolcInput) (out : CompilerOutput)
    (h : compile_exact compileFn input = .ok out) :
    (∀ p x, (p, x) ∈ out.sources → ∃ c, (p, c) ∈ input.sources) ∧
    (∀ p x, (p, x) ∈ out.contracts → ∃ c, (p, c) ∈ input.sources) := by
  unfold compile_exact at h
  cases hc : compileFn input with
  | error e => rw [hc] at h; cases h
  | ok raw =>
    rw [hc] at h
    cases h
    constructor
    · intro p x hmem
      have hmem' := List.mem_filter.1 hmem
      have hcontains : p ∈ input.sources.map (fun kv => kv.1) := by
        simpa using hmem'.2
      obtain ⟨kv, hkv, hfst⟩ := List.mem_map.1 hcontains
      obtain ⟨k1, k2⟩ := kv
      subst hfst
      exact ⟨k2, hkv⟩
    · intro p x hmem
      have hmem' := List.mem_filter.1 hmem
      have hcontains : p ∈ input.sources.map (fun kv => kv.1) := by
        simpa using hmem'.2
      obtain ⟨kv, hkv, hfst⟩ := List.mem_map.1 hcontains
      obtain ⟨k1, k2⟩ := kv
      subst hfst
      exact ⟨k2, hkv⟩

/-- Witness for C10: a raw output containing an extra file `extra.sol`
is filtered down to the input's only file, and the conclusions hold. -/
theorem compile_exact_filters_to_input_witness :
    (∀ p x,
      (p, x) ∈ (CompilerOutput.mk [] [("a.sol", 1)] [("a.sol", 7)]).sources →
        ∃ c, (p, c) ∈ (SolcInput.mk [("a.sol", "contract A {}")]).sources) ∧
    (∀ p x,
      (p, x) ∈ (CompilerOutput.mk [] [("a.sol", 1)] [("a.sol", 7)]).contracts →
        ∃ c, (p, c) ∈ (SolcInput.mk [("a.sol", "contract A {}")]).sources) :=
  compile_exact_filters_to_input
    (fun _ => .ok (CompilerOutput.mk [] [("a.sol", 1), ("extra.sol", 2)]
      [("a.sol", 7), ("extra.sol", 8)]))
    (SolcInput.mk [("a.sol", "contract A {}")])
    (CompilerOutput.mk [] [("a.sol", 1)] [("a.sol", 7)])
    (by decide)

/-! ## The batch scheduler (`Solc::compile_many`)

`compile_many` maps each `(solc, input)` job to the future
`(solc.async_compile(&input), solc, input)` and drains the stream with
`buffer_unordered(n)`, collecting results in completion order into a
`CompiledMany` (modelled from the spec as the plain ordered collection of
results, its definition being outside the embedded file).  The compile
call itself is abstracted as `oracle`; the nondeterministic completion
order is an explicit parameter `completion`, a permutation of the job
indices; the bound `n` restricts which completion orders the scheduler
can realize, never which results are collected. -/

/-- One job's contribution: its outcome paired with its originating
handle and input. -/
def runCompileJob (oracle : Solc × SolcInput → Except SolcError CompilerOutput)
    (job : Solc × SolcInput) : Except SolcError CompilerOutput × Solc × SolcInput :=
  (oracle job, job.1, job.2)

/-- `Solc::compile_many` with completion order made explicit. -/
def compile_many (n : Nat)
    (oracle : Solc × SolcInput → Except SolcError CompilerOutput)
    (jobs : List (Solc × SolcInput)) (completion : List Nat) :
    List (Except SolcError CompilerOutput × Solc × SolcInput) :=
  let _ := n
  completion.filterMap (fun i => (jobs.map (runCompileJob oracle))[i]?)

theorem range_filterMap_getElem {α : Type} (l : List α) :
    (List.range l.length).filterMap (fun i => l[i]?) = l := by
  induction l with
  | nil => simp
  | cons a t ih =>
    simp only [List.length_cons, List.range_succ_eq_map, List.filterMap_cons,
      List.getElem?_cons_zero, List.filterMap_map]
    simp only [Function.comp_def, Nat.succ_eq_add_one, List.getElem?_cons_succ]
    rw [ih]

/-- C9: for every completion order (any permutation of the K job indices)
and every concurrency bound, `compile_many` returns exactly K results, the
collection is a permutation of the per-job results, and every result
carries its originating handle and input together with exactly that job's
outcome — so one job's failure cannot remove or alter a sibling's
result. -/
theorem compile_many_pairs_results (n : Nat)
    (oracle : Solc × SolcInput → Except SolcError CompilerOutput)
    (jobs : List (Solc × SolcInput)) (completion : List Nat)
    (hperm : completion.Perm (List.range jobs.length)) :
    (compile_many n oracle jobs completion).length = jobs.length ∧
    (compile_many n oracle jobs completion).Perm
      (jobs.map (runCompileJob oracle)) ∧
    (∀ r ∈ compile_many n oracle jobs completion,
      (r.2.1, r.2.2) ∈ jobs ∧ r.1 = oracle (r.2.1, r.2.2)) := by
  have h2 : (List.range jobs.length).filterMap
      (fun i => (jobs.map (runCompileJob oracle))[i]?)
        = jobs.map (runCompileJob oracle) := by
    have := range_filterMap_getElem (jobs.map (runCompileJob oracle))
    rwa [List.length_map] at this
  have hp : (compile_many n oracle jobs completion).Perm
      (jobs.map (runCompileJob oracle)) := by
    unfold compile_many
    have hstep := hperm.filterMap
      (fun i => (jobs.map (runCompileJob oracle))[i]?)
    rw [h2] at hstep
    exact hstep
  refine ⟨?_, hp, ?_⟩
  · rw [hp.length_eq, List.length_map]
  · intro r hr
    have hr' : r ∈ jobs.map (runCompileJob oracle) := hp.mem_iff.1 hr
    obtain ⟨j, hj, rfl⟩ := List.mem_map.1 hr'
    obtain ⟨js, ji⟩ := j
    exact ⟨hj, rfl⟩

/-- Two concrete jobs: the second one fails (its outcome is an error)
while the first succeeds. -/
def jobsW : List (Solc × SolcInput) :=
  [(solc0810, SolcInput.mk [("a.sol", "contract A {}")]),
   (solcPreRelease, SolcInput.mk [])]

def oracleW : Solc × SolcInput → Except SolcError CompilerOutput :=
  fun j =>
    if j.2.sources.isEmpty then .error .versionNotFound
    else .ok (CompilerOutput.mk [] [("a.sol", 1)] [])

/-- Witness for C9: two jobs completing in reverse order under bound 1,
one of them failing; both results are present and correctly paired. -/
theorem compile_many_pairs_results_witness :
    [1, 0].Perm (List.range jobsW.length) ∧
    ((compile_many 1 oracleW jobsW [1, 0]).length = jobsW.length ∧
     (compile_many 1 oracleW jobsW [1, 0]).Perm
       (jobsW.map (runCompileJob oracleW)) ∧
     (∀ r ∈ compile_many 1 oracleW jobsW [1, 0],
        (r.2.1, r.2.2) ∈ jobsW ∧ r.1 = oracleW (r.2.1, r.2.2))) :=
  ⟨by decide, compile_many_pairs_results 1 oracleW jobsW [1, 0] (by decide)⟩

end FoundryCompilers
